import Mathlib

/-!
# EDM_Tutorial: the FWLite event loop and the histogram script

A shallow embedding of

* `EventLoop/EventLoop/bin/main.cc`: the loop over the events of a file that
  prints, for every event, a marker line and the invariant mass of every
  ordered pair of jets of the collection `skimmedPatJets`;
* `SelfLibraries/SecondLib/src/function.cc`: the function `SecondLib` that
  fills a ten-bin histogram 45 times.

Conventions of the embedding.

* `unsigned` is a 32-bit machine integer: a counter is a `Nat` below
  `UINT_RANGE = 2 ^ 32` and `++i` is `(i + 1) % UINT_RANGE`.  A comparison of an
  `unsigned` with `jet_list.size()` (a 64-bit `size_t`, to which the counter is
  converted) is the comparison of the two numbers.
* A `for` loop whose counter can wrap may run forever, so the two jet loops
  take fuel, the number of iterations they are allowed; a loop that is cut off
  reports `Outcome.running` together with what it has printed so far.
* `std::cout` is the list of lines printed so far, oldest first.
* The components of a four-momentum are `double`s in the program; the
  embedding computes with them in exact arithmetic, as rational numbers.
-/

namespace EventLoop

/-! ## The framework types used by `main` -/

/-- Modelled from the spec: the four-momentum `(px, py, pz, E)` that `p4()`
returns (the framework class `math::XYZTLorentzVector`, not part of this
repository). -/
structure P4 where
  px : ℚ
  py : ℚ
  pz : ℚ
  E : ℚ
  deriving DecidableEq, Repr

/-- Modelled from the spec: `operator+` of the framework four-vector, which the
spec describes as component-wise vector addition. -/
def P4.add (p q : P4) : P4 :=
  ⟨p.px + q.px, p.py + q.py, p.pz + q.pz, p.E + q.E⟩

instance : Add P4 := ⟨P4.add⟩

/-- Modelled from the spec: the radicand `E² − px² − py² − pz²` of the invariant
mass of a four-vector. -/
def P4.M2 (p : P4) : ℚ :=
  p.E * p.E - p.px * p.px - p.py * p.py - p.pz * p.pz

/-- Modelled from the spec: the accessor `mass()` of the framework four-vector,
which the spec describes as `sqrt(E² − px² − py² − pz²)`, clamped to 0 if the
radicand is negative. -/
noncomputable def P4.mass (p : P4) : ℝ :=
  if 0 ≤ p.M2 then Real.sqrt (p.M2 : ℝ) else 0

/-- Modelled from the spec: a jet (the framework class `pat::Jet`, not part of
this repository), a record of which `main` only reads the four-momentum
`p4()`. -/
structure Jet where
  p4 : P4
  deriving DecidableEq, Repr

/-- Modelled from the spec: what `my_handle.getByLabel(ev, "skimmedPatJets", "",
"TstarBaseLine")` followed by `*(my_handle)` yields for one event of the file:
the jet collection, or `none` when the collection is absent, in which case the
framework raises its missing-collection error. -/
structure Event where
  skimmedPatJets : Option (List Jet)
  deriving DecidableEq, Repr

/-! ## Output and results -/

/-- One line written to `std::cout`: `"At Event [" << i` or
`"Dijet mass: " << m`. -/
inductive Line (M : Type) where
  | atEvent (i : Nat) : Line M
  | dijetMass (m : M) : Line M
  deriving DecidableEq, Repr

/-- How a (fuel-bounded) run of a piece of `main` ended. -/
inductive Outcome where
  /-- The code ran to its end. -/
  | returned
  /-- The missing-collection error of the framework ended the program. -/
  | missingCollection
  /-- The fuel ran out while a loop was still running. -/
  | running
  deriving DecidableEq, Repr

/-- The lines printed so far and how the run ended. -/
structure Run (M : Type) where
  out : List (Line M)
  outcome : Outcome
  deriving DecidableEq, Repr

/-- The indices printed by the event markers of an output, in order. -/
def markers {M : Type} : List (Line M) → List Nat
  | [] => []
  | Line.atEvent i :: rest => i :: markers rest
  | Line.dijetMass _ :: rest => markers rest

/-- The values printed by the `Dijet mass` lines of an output, in order. -/
def masses {M : Type} : List (Line M) → List M
  | [] => []
  | Line.atEvent _ :: rest => masses rest
  | Line.dijetMass m :: rest => m :: masses rest

/-! ## `main` -/

/-- The number of values of an `unsigned`. -/
def UINT_RANGE : Nat := 2 ^ 32

/-- The expression `( jet_list[i].p4() + jet_list[j].p4() ).mass()` of line 22,
for the jets `a = jet_list[i]` and `b = jet_list[j]`; `mass` is the accessor of
the framework. -/
def dijet {M : Type} (mass : P4 → M) (a b : Jet) : M :=
  mass (a.p4 + b.p4)

/-- The loop `for( unsigned j = 0 ; j < jet_list.size() ; ++j )` of lines 20-23,
entered with the jet `a = jet_list[i]`; the arguments are the fuel, the current
`j` and the output so far. -/
def loopJ {M : Type} (mass : P4 → M) (jet_list : List Jet) (a : Jet) :
    Nat → Nat → List (Line M) → Run M
  | 0, j, out =>
    if j < jet_list.length then ⟨out, Outcome.running⟩ else ⟨out, Outcome.returned⟩
  | fuel + 1, j, out =>
    if h : j < jet_list.length then
      loopJ mass jet_list a fuel ((j + 1) % UINT_RANGE)
        (out ++ [Line.dijetMass (dijet mass a (jet_list.get ⟨j, h⟩))])
    else ⟨out, Outcome.returned⟩

/-- The loop `for( unsigned i = 0 ; i < jet_list.size() ; ++i )` of lines 19-24.
Its counter is a variable of its own, which hides the event counter of the
enclosing loop. `fuelJ` is the fuel handed to every run of the inner loop; the
other arguments are the fuel of this loop, the current `i` and the output so
far. -/
def loopI {M : Type} (mass : P4 → M) (jet_list : List Jet) (fuelJ : Nat) :
    Nat → Nat → List (Line M) → Run M
  | 0, i, out =>
    if i < jet_list.length then ⟨out, Outcome.running⟩ else ⟨out, Outcome.returned⟩
  | fuel + 1, i, out =>
    if h : i < jet_list.length then
      match loopJ mass jet_list (jet_list.get ⟨i, h⟩) fuelJ 0 out with
      | ⟨out1, Outcome.returned⟩ =>
        loopI mass jet_list fuelJ fuel ((i + 1) % UINT_RANGE) out1
      | r => r
    else ⟨out, Outcome.returned⟩

/-- The body of the event loop, lines 15-24, for the event `ev` reached with
the event counter at `i`: the marker is printed first, then the collection is
fetched, then the pairs are printed. -/
def eventBody {M : Type} (mass : P4 → M) (fuel : Nat) (i : Nat) (ev : Event)
    (out : List (Line M)) : Run M :=
  match ev.skimmedPatJets with
  | none => ⟨out ++ [Line.atEvent i], Outcome.missingCollection⟩
  | some jet_list => loopI mass jet_list fuel fuel 0 (out ++ [Line.atEvent i])

/-- The loop `for( ev.toBegin() ; ! ev.atEnd() ; ++ev , ++i)` of lines 14-26 over
the events that are left in the file, with the event counter at `i`. -/
def eventLoop {M : Type} (mass : P4 → M) (fuel : Nat) :
    List Event → Nat → List (Line M) → Run M
  | [], _, out => ⟨out, Outcome.returned⟩
  | ev :: rest, i, out =>
    match eventBody mass fuel i ev out with
    | ⟨out1, Outcome.returned⟩ => eventLoop mass fuel rest ((i + 1) % UINT_RANGE) out1
    | r => r

/-- The program `main` run on a file holding the events `file`: the event
counter starts at 0 and nothing has been printed. -/
def main {M : Type} (mass : P4 → M) (fuel : Nat) (file : List Event) : Run M :=
  eventLoop mass fuel file 0 []

end EventLoop

/-! ## `SecondLib` -/

/-- Modelled from the spec: the fixed-bin histogram of the plotting toolkit (the
class `TH1F`, not part of this repository) with `nbins` bins of equal width
over `[xmin, xmax)`. `fArray` holds `nbins + 2` counts: the underflow cell, the
bins 1 to `nbins`, and the overflow cell. -/
structure TH1F where
  nbins : Nat
  xmin : ℚ
  xmax : ℚ
  fArray : List Nat
  fEntries : Nat
  deriving DecidableEq, Repr

/-- Modelled from the spec: the constructor `TH1F(name, title, nbinsx, xlow,
xup)` of the plotting toolkit, an empty histogram with the given bin count and
range. -/
def TH1F.create (nbinsx : Nat) (xlow xup : ℚ) : TH1F :=
  ⟨nbinsx, xlow, xup, List.replicate (nbinsx + 2) 0, 0⟩

/-- Modelled from the spec: the cell of a fixed-bin histogram a value falls
into: 0 (underflow) below the range, `nbins + 1` (overflow) at or above its
upper end, and otherwise the bin of equal width that holds it. -/
def TH1F.FindBin (hist : TH1F) (x : ℚ) : Nat :=
  if x < hist.xmin then 0
  else if ¬ x < hist.xmax then hist.nbins + 1
  else 1 + (Int.toNat ⌊(hist.nbins : ℚ) * (x - hist.xmin) / (hist.xmax - hist.xmin)⌋)

/-- Modelled from the spec: `hist->Fill(x)` of the plotting toolkit, one more
entry, counted in the cell of `x`. -/
def TH1F.Fill (hist : TH1F) (x : ℚ) : TH1F :=
  { hist with
    fArray := hist.fArray.modify (· + 1) (hist.FindBin x)
    fEntries := hist.fEntries + 1 }

/-- The values `i%10` that the loop `for( int i = 0 ; i < 45 ; ++i )` of
`SecondLib` passes to `Fill`, in order. -/
def SecondLib.filled : List Nat :=
  (List.range 45).map (fun i => i % 10)

/-- The histogram that `SecondLib` has built when it draws it: ten bins over
`[0, 10)`, filled with `i%10` for `i = 0, ..., 44`. -/
def SecondLib : TH1F :=
  (List.range 45).foldl (fun hist i => hist.Fill ((i % 10 : Nat) : ℚ)) (TH1F.create 10 0 10)


namespace EventLoop

/-! ## Reference lists

The lists below say what a run that is not cut short prints; the theorems
compare the loops with them. -/

/-- The values of all ordered pairs of `jets`, row by row. -/
def grid {M : Type} (mass : P4 → M) (jets : List Jet) : List M :=
  jets.flatMap fun a => jets.map fun b => dijet mass a b

/-- What the event loop prints for a file whose events all have their
collection, when the event counter starts at `i`. -/
def report {M : Type} (mass : P4 → M) : List Event → Nat → List (Line M)
  | [], _ => []
  | ev :: rest, i =>
    Line.atEvent i :: (grid mass (ev.skimmedPatJets.getD [])).map Line.dijetMass
      ++ report mass rest ((i + 1) % UINT_RANGE)

/-- An event that the loops get through with the fuel `fuel`: its collection is
there, and its number of jets fits an `unsigned` and the fuel. -/
def Passable (fuel : Nat) (ev : Event) : Prop :=
  ∃ jets, ev.skimmedPatJets = some jets ∧ jets.length < UINT_RANGE ∧ jets.length ≤ fuel

/-! ## Inputs of the examples -/

/-- The jet `J0 = (px=0, py=0, pz=0, E=10)` of the scenario of the spec. -/
def J0 : Jet := ⟨⟨0, 0, 0, 10⟩⟩

/-- The jet `J1 = (px=3, py=4, pz=0, E=10)` of the scenario of the spec. -/
def J1 : Jet := ⟨⟨3, 4, 0, 10⟩⟩

/-- A jet list of length `2 ^ 32`: `J0` followed by `2 ^ 32 - 1` copies of
`J1`. -/
def wideJets : List Jet := J0 :: List.replicate (UINT_RANGE - 1) J1

/-- A file of `2 ^ 32 + 1` events without jets. -/
def longFile : List Event := List.replicate (UINT_RANGE + 1) ⟨some []⟩

/-! ## Lemmas on the output lists -/

section Lists

variable {M : Type}

@[simp] theorem P4.add_px (p q : P4) : (p + q).px = p.px + q.px := rfl
@[simp] theorem P4.add_py (p q : P4) : (p + q).py = p.py + q.py := rfl
@[simp] theorem P4.add_pz (p q : P4) : (p + q).pz = p.pz + q.pz := rfl
@[simp] theorem P4.add_E (p q : P4) : (p + q).E = p.E + q.E := rfl

theorem P4.add_swap (p q : P4) : p + q = q + p := by
  cases p; cases q
  show P4.add _ _ = P4.add _ _
  simp [P4.add, add_comm]

theorem UINT_RANGE_pos : 0 < UINT_RANGE := by
  unfold UINT_RANGE; norm_num

theorem masses_append (l₁ l₂ : List (Line M)) :
    masses (l₁ ++ l₂) = masses l₁ ++ masses l₂ := by
  induction l₁ with
  | nil => rfl
  | cons x xs ih => cases x <;> simp [masses, ih]

theorem markers_append (l₁ l₂ : List (Line M)) :
    markers (l₁ ++ l₂) = markers l₁ ++ markers l₂ := by
  induction l₁ with
  | nil => rfl
  | cons x xs ih => cases x <;> simp [markers, ih]

theorem masses_map_dijetMass (ms : List M) :
    masses (ms.map Line.dijetMass) = ms := by
  induction ms with
  | nil => rfl
  | cons x xs ih => simp [masses, ih]

theorem masses_map_comp {α : Type} (f : α → M) (l : List α) :
    masses (l.map fun t => Line.dijetMass (f t)) = l.map f := by
  induction l with
  | nil => rfl
  | cons x xs ih => simp [masses, ih]

theorem markers_map_dijetMass (ms : List M) :
    markers (ms.map (Line.dijetMass : M → Line M)) = [] := by
  induction ms with
  | nil => rfl
  | cons x xs ih => simp [markers, ih]

theorem markers_map_comp {α : Type} (f : α → M) (l : List α) :
    markers (l.map fun t => Line.dijetMass (f t)) = [] := by
  induction l with
  | nil => rfl
  | cons x xs ih => simp [markers, ih]

theorem length_flatMap_map {α β : Type} (l m : List α) (f : α → α → β) :
    (l.flatMap fun a => m.map fun b => f a b).length = l.length * m.length := by
  induction l with
  | nil => simp
  | cons x xs ih => simp [List.flatMap_cons, ih, Nat.succ_mul, Nat.add_comm]

theorem getElem?_flatMap_map {α β : Type} (m : List α) (f : α → α → β) :
    ∀ (l : List α) (r c : Nat) (x y : α), l[r]? = some x → m[c]? = some y →
      (l.flatMap fun a => m.map fun b => f a b)[r * m.length + c]? = some (f x y) := by
  intro l
  induction l with
  | nil => intro r c x y hx; simp at hx
  | cons z zs ih =>
    intro r c x y hx hy
    have hc : c < m.length := by
      rcases Nat.lt_or_ge c m.length with h | h
      · exact h
      · rw [List.getElem?_eq_none h] at hy; cases hy
    cases r with
    | zero =>
      simp at hx
      subst hx
      rw [List.flatMap_cons, Nat.zero_mul, Nat.zero_add,
        List.getElem?_append_left (by simpa using hc)]
      simp [hy]
    | succ r =>
      simp at hx
      rw [List.flatMap_cons, List.getElem?_append_right (by simp [Nat.succ_mul]; omega)]
      have : (r + 1) * m.length + c - (List.map (fun b => f z b) m).length
          = r * m.length + c := by
        simp [Nat.succ_mul]; omega
      rw [this]
      exact ih r c x y hx hy

theorem grid_length (mass : P4 → M) (jets : List Jet) :
    (grid mass jets).length = jets.length * jets.length :=
  length_flatMap_map jets jets (dijet mass)

theorem grid_getElem? (mass : P4 → M) (jets : List Jet) (r c : Nat) (a b : Jet)
    (ha : jets[r]? = some a) (hb : jets[c]? = some b) :
    (grid mass jets)[r * jets.length + c]? = some (dijet mass a b) :=
  getElem?_flatMap_map jets (dijet mass) jets r c a b ha hb

end Lists

/-! ## The loops when no counter wraps -/

section Returns

variable {M : Type}

theorem succ_mod_of_lt {j n : Nat} (hj : j < n) (hn : n < UINT_RANGE) :
    (j + 1) % UINT_RANGE = j + 1 :=
  Nat.mod_eq_of_lt (by omega)

/-- With fewer than `2 ^ 32` jets and fuel for the iterations that are left, the
inner loop prints the rest of the row and ends. -/
theorem loopJ_returns (mass : P4 → M) (jets : List Jet) (a : Jet)
    (hN : jets.length < UINT_RANGE) :
    ∀ (fuel j : Nat) (out : List (Line M)), j ≤ jets.length → jets.length - j ≤ fuel →
      loopJ mass jets a fuel j out
        = ⟨out ++ (jets.drop j).map (fun b => Line.dijetMass (dijet mass a b)),
            Outcome.returned⟩ := by
  intro fuel
  induction fuel with
  | zero =>
    intro j out hj hf
    have hjN : j = jets.length := by omega
    subst hjN
    simp [loopJ]
  | succ fuel ih =>
    intro j out hj hf
    by_cases h : j < jets.length
    · rw [loopJ, dif_pos h, succ_mod_of_lt h hN, ih (j + 1) _ (by omega) (by omega),
        List.drop_eq_getElem_cons h, List.map_cons, List.append_assoc, List.get_eq_getElem]
      rfl
    · have hjN : j = jets.length := by omega
      subst hjN
      simp [loopJ]

/-- With fewer than `2 ^ 32` jets and fuel for the iterations that are left, the
outer jet loop prints the rest of the rows and ends. -/
theorem loopI_returns (mass : P4 → M) (jets : List Jet) (fuelJ : Nat)
    (hN : jets.length < UINT_RANGE) (hJ : jets.length ≤ fuelJ) :
    ∀ (fuel i : Nat) (out : List (Line M)), i ≤ jets.length → jets.length - i ≤ fuel →
      loopI mass jets fuelJ fuel i out
        = ⟨out ++ ((jets.drop i).flatMap fun a => jets.map fun b => dijet mass a b).map
            Line.dijetMass, Outcome.returned⟩ := by
  intro fuel
  induction fuel with
  | zero =>
    intro i out hi hf
    have hiN : i = jets.length := by omega
    subst hiN
    simp [loopI]
  | succ fuel ih =>
    intro i out hi hf
    by_cases h : i < jets.length
    · rw [loopI, dif_pos h,
        loopJ_returns mass jets _ hN fuelJ 0 out (Nat.zero_le _) (by omega)]
      simp only []
      rw [succ_mod_of_lt h hN, ih (i + 1) _ (by omega) (by omega),
        List.drop_eq_getElem_cons h, List.flatMap_cons, List.map_append, List.append_assoc,
        List.get_eq_getElem, List.drop_zero, List.map_map]
      rfl
    · have hiN : i = jets.length := by omega
      subst hiN
      simp [loopI]

/-- An event with fewer than `2 ^ 32` jets, given fuel for them: the body prints
the marker and the whole grid and ends. -/
theorem eventBody_returns (mass : P4 → M) (fuel i : Nat) (jets : List Jet)
    (out : List (Line M)) (hN : jets.length < UINT_RANGE) (hF : jets.length ≤ fuel) :
    eventBody mass fuel i ⟨some jets⟩ out
      = ⟨out ++ Line.atEvent i :: (grid mass jets).map Line.dijetMass,
          Outcome.returned⟩ := by
  simp [eventBody, grid,
    loopI_returns mass jets fuel hN hF fuel 0 _ (Nat.zero_le _) (by omega)]

/-- An event whose collection is absent: the body prints the marker and the
framework ends the program. -/
theorem eventBody_missing (mass : P4 → M) (fuel i : Nat) (out : List (Line M)) :
    eventBody mass fuel i ⟨none⟩ out
      = ⟨out ++ [Line.atEvent i], Outcome.missingCollection⟩ := rfl

/-- A file of passable events: the event loop prints the report and ends. -/
theorem eventLoop_returns (mass : P4 → M) (fuel : Nat) :
    ∀ (evs : List Event) (i : Nat) (out : List (Line M)),
      (∀ ev ∈ evs, Passable fuel ev) →
      eventLoop mass fuel evs i out = ⟨out ++ report mass evs i, Outcome.returned⟩ := by
  intro evs
  induction evs with
  | nil => intro i out _; simp [eventLoop, report]
  | cons ev rest ih =>
    intro i out h
    obtain ⟨jets, hjets, hN, hF⟩ := h ev (List.mem_cons_self _ _)
    have hev : ev = ⟨some jets⟩ := by cases ev; simp_all
    subst hev
    rw [eventLoop, eventBody_returns mass fuel i jets out hN hF]
    simp only []
    rw [ih _ _ (fun e he => h e (List.mem_cons_of_mem _ he))]
    simp [report]

theorem succ_mod_add_mod (i n : Nat) :
    ((i + 1) % UINT_RANGE + n) % UINT_RANGE = (i + (n + 1)) % UINT_RANGE := by
  rw [Nat.add_mod, Nat.mod_mod, ← Nat.add_mod]
  congr 1
  omega

/-- A passable part of the file followed by an event without its collection:
the event loop prints the report of that part and the marker of the event, and
the framework ends the program. -/
theorem eventLoop_missing (mass : P4 → M) (fuel : Nat) (rest : List Event) :
    ∀ (evs : List Event) (i : Nat) (out : List (Line M)), i < UINT_RANGE →
      (∀ ev ∈ evs, Passable fuel ev) →
      eventLoop mass fuel (evs ++ ⟨none⟩ :: rest) i out
        = ⟨out ++ report mass evs i
            ++ [Line.atEvent ((i + evs.length) % UINT_RANGE)],
          Outcome.missingCollection⟩ := by
  intro evs
  induction evs with
  | nil =>
    intro i out hi _
    simp [eventLoop, eventBody_missing, report, Nat.mod_eq_of_lt hi]
  | cons ev evs ih =>
    intro i out hi h
    obtain ⟨jets, hjets, hN, hF⟩ := h ev (List.mem_cons_self _ _)
    have hev : ev = ⟨some jets⟩ := by cases ev; simp_all
    subst hev
    rw [List.cons_append, eventLoop, eventBody_returns mass fuel i jets out hN hF]
    simp only []
    rw [ih _ _ (Nat.mod_lt _ UINT_RANGE_pos) (fun e he => h e (List.mem_cons_of_mem _ he)),
      succ_mod_add_mod]
    simp [report]

/-- The markers of a report count up from the starting value of the event
counter, modulo `2 ^ 32`. -/
theorem markers_report (mass : P4 → M) :
    ∀ (evs : List Event) (i : Nat), i < UINT_RANGE →
      markers (report mass evs i)
        = (List.range evs.length).map fun k => (i + k) % UINT_RANGE := by
  intro evs
  induction evs with
  | nil => intro i _; simp [report, markers]
  | cons ev evs ih =>
    intro i hi
    rw [report, List.cons_append, markers, markers_append, markers_map_dijetMass,
      List.nil_append, ih _ (Nat.mod_lt _ UINT_RANGE_pos), List.length_cons,
      List.range_succ_eq_map, List.map_cons, List.map_map]
    simp only [Nat.add_zero, Nat.mod_eq_of_lt hi]
    congr 1
    apply List.map_congr_left
    intro k _
    simp only [Function.comp_apply, Nat.succ_eq_add_one]
    exact succ_mod_add_mod i k

end Returns

/-! ## The loops when the jet counter wraps -/

section Wraps

variable {M : Type}

/-- With `2 ^ 32` jets or more the counter `j` wraps before it reaches the size
of the list: whatever the fuel, the inner loop is still running when it is used
up, having printed one value per unit of fuel, for the jets at `j`, `j + 1`,
... modulo `2 ^ 32`. -/
theorem loopJ_wraps (mass : P4 → M) (jets : List Jet) (a : Jet)
    (hN : UINT_RANGE ≤ jets.length) :
    ∀ (fuel j : Nat) (out : List (Line M)), j < UINT_RANGE →
      loopJ mass jets a fuel j out
        = ⟨out ++ (List.range fuel).map (fun t =>
              Line.dijetMass (dijet mass a (jets.getD ((j + t) % UINT_RANGE) a))),
            Outcome.running⟩ := by
  intro fuel
  induction fuel with
  | zero =>
    intro j out hj
    have h : j < jets.length := by omega
    simp [loopJ, h]
  | succ fuel ih =>
    intro j out hj
    have h : j < jets.length := by omega
    rw [loopJ, dif_pos h, ih _ _ (Nat.mod_lt _ UINT_RANGE_pos), List.range_succ_eq_map,
      List.map_cons, List.map_map, List.append_assoc]
    simp only [Nat.add_zero, Nat.mod_eq_of_lt hj, List.getD_eq_getElem jets a h,
      List.get_eq_getElem, List.singleton_append]
    congr 3
    apply List.map_congr_left
    intro t _
    simp only [Function.comp_apply, Nat.succ_eq_add_one, succ_mod_add_mod]

/-- With `2 ^ 32` jets or more the body of the event loop never gets past the
first row: whatever the fuel, it is still running when the fuel is used up,
having printed the marker and one value per unit of fuel. -/
theorem eventBody_wraps (mass : P4 → M) (fuel i : Nat) (a : Jet) (tail : List Jet)
    (out : List (Line M)) (hN : UINT_RANGE ≤ (a :: tail).length) :
    eventBody mass fuel i ⟨some (a :: tail)⟩ out
      = ⟨out ++ Line.atEvent i :: (List.range fuel).map (fun t =>
            Line.dijetMass (dijet mass a ((a :: tail).getD (t % UINT_RANGE) a))),
          Outcome.running⟩ := by
  cases fuel with
  | zero => simp [eventBody, loopI]
  | succ fuel =>
    have h0 : 0 < (a :: tail).length := by simp
    rw [eventBody]
    simp only []
    rw [loopI, dif_pos h0, loopJ_wraps mass (a :: tail) _ hN (fuel + 1) 0 _ UINT_RANGE_pos]
    simp

/-- An event loop that meets an event with `2 ^ 32` jets or more stays in that
event. -/
theorem eventLoop_wraps (mass : P4 → M) (fuel i : Nat) (a : Jet) (tail : List Jet)
    (rest : List Event) (out : List (Line M)) (hN : UINT_RANGE ≤ (a :: tail).length) :
    eventLoop mass fuel (⟨some (a :: tail)⟩ :: rest) i out
      = eventBody mass fuel i ⟨some (a :: tail)⟩ out := by
  rw [eventLoop, eventBody_wraps mass fuel i a tail out hN]

end Wraps

/-! ## What any run prints, and the modelled mass -/

section Values

variable {M : Type}

/-- Whatever the fuel, every value the inner loop adds to the output is the
value of the pair of `a` with a jet of the list. -/
theorem loopJ_out_mem (mass : P4 → M) (jets : List Jet) (a : Jet) (Q : M → Prop)
    (hQ : ∀ b ∈ jets, Q (dijet mass a b)) :
    ∀ (fuel j : Nat) (out : List (Line M)), (∀ m, Line.dijetMass m ∈ out → Q m) →
      ∀ m, Line.dijetMass m ∈ (loopJ mass jets a fuel j out).out → Q m := by
  intro fuel
  induction fuel with
  | zero =>
    intro j out hout m hm
    rw [loopJ] at hm
    split at hm <;> exact hout m hm
  | succ fuel ih =>
    intro j out hout m hm
    rw [loopJ] at hm
    split at hm
    · rename_i h
      refine ih _ _ ?_ m hm
      intro m1 hm1
      rw [List.mem_append, List.mem_singleton] at hm1
      rcases hm1 with h1 | h1
      · exact hout m1 h1
      · cases h1
        exact hQ _ (List.get_mem jets j h)
    · exact hout m hm

/-- Whatever the fuel, every value the jet loops add to the output is the value
of a pair of jets of the list. -/
theorem loopI_out_mem (mass : P4 → M) (jets : List Jet) (fuelJ : Nat) (Q : M → Prop)
    (hQ : ∀ a ∈ jets, ∀ b ∈ jets, Q (dijet mass a b)) :
    ∀ (fuel i : Nat) (out : List (Line M)), (∀ m, Line.dijetMass m ∈ out → Q m) →
      ∀ m, Line.dijetMass m ∈ (loopI mass jets fuelJ fuel i out).out → Q m := by
  intro fuel
  induction fuel with
  | zero =>
    intro i out hout m hm
    rw [loopI] at hm
    split at hm <;> exact hout m hm
  | succ fuel ih =>
    intro i out hout m hm
    rw [loopI] at hm
    split at hm
    · rename_i h
      have hJ := loopJ_out_mem mass jets (jets.get ⟨i, h⟩) Q
        (hQ _ (List.get_mem jets i h)) fuelJ 0 out hout
      generalize loopJ mass jets (jets.get ⟨i, h⟩) fuelJ 0 out = r at hJ hm
      rcases r with ⟨out1, oc⟩
      cases oc
      · exact ih _ _ hJ m hm
      · exact hJ m hm
      · exact hJ m hm
    · exact hout m hm

/-- Whatever the fuel, every value printed for an event is the value of a pair
of jets of the event. -/
theorem eventBody_out_mem (mass : P4 → M) (fuel i : Nat) (jets : List Jet) (m : M)
    (hm : Line.dijetMass m ∈ (eventBody mass fuel i ⟨some jets⟩ []).out) :
    ∃ a ∈ jets, ∃ b ∈ jets, m = dijet mass a b := by
  rw [eventBody] at hm
  refine loopI_out_mem mass jets fuel (fun m => ∃ a ∈ jets, ∃ b ∈ jets, m = dijet mass a b)
    (fun a ha b hb => ⟨a, ha, b, hb, rfl⟩) fuel 0 _ ?_ m hm
  intro m1 hm1
  simp at hm1

/-- The radicand of a sum, written out in the components of the two terms. -/
theorem M2_add (p q : P4) :
    (p + q).M2 = (p.E + q.E) ^ 2 - (p.px + q.px) ^ 2 - (p.py + q.py) ^ 2
      - (p.pz + q.pz) ^ 2 := by
  simp only [P4.M2, P4.add_px, P4.add_py, P4.add_pz, P4.add_E]
  ring

/-- The modelled mass is the real square root of the radicand: the real square
root is 0 on negative numbers. -/
theorem mass_eq_sqrt (p : P4) : p.mass = Real.sqrt (p.M2 : ℝ) := by
  unfold P4.mass
  split
  · rfl
  · rename_i h
    have h1 : ((p.M2 : ℚ) : ℝ) ≤ 0 := by
      have : p.M2 ≤ 0 := le_of_lt (not_le.mp h)
      exact_mod_cast this
    exact (Real.sqrt_eq_zero_of_nonpos h1).symm

/-- The modelled mass of a four-vector with negative radicand is 0. -/
theorem mass_eq_zero (p : P4) (h : p.M2 < 0) : p.mass = 0 := by
  unfold P4.mass
  rw [if_neg (not_le.mpr h)]

/-- The modelled mass of twice a four-vector is twice its modelled mass. -/
theorem mass_double (p : P4) : (p + p).mass = 2 * p.mass := by
  have h4 : (p + p).M2 = 2 * 2 * p.M2 := by
    simp only [P4.M2, P4.add_px, P4.add_py, P4.add_pz, P4.add_E]
    ring
  rw [mass_eq_sqrt, mass_eq_sqrt, h4]
  push_cast
  rw [Real.sqrt_mul (by norm_num), Real.sqrt_mul_self (by norm_num)]

/-- The modelled mass of a pair, from its radicand. -/
theorem dijet_mass_of_M2 (a b : Jet) (q : ℚ) (h : dijet P4.M2 a b = q) :
    dijet P4.mass a b = Real.sqrt (q : ℝ) := by
  unfold dijet at h ⊢
  rw [mass_eq_sqrt, h]

theorem sqrt_400 : Real.sqrt ((400 : ℚ) : ℝ) = 20 := by
  have h : ((400 : ℚ) : ℝ) = 20 * 20 := by norm_num
  rw [h, Real.sqrt_mul_self (by norm_num)]

end Values

/-! ## The example inputs -/

section Inputs

theorem UINT_RANGE_pred_pos : 0 < UINT_RANGE - 1 := by
  unfold UINT_RANGE; norm_num

theorem wideJets_length : wideJets.length = UINT_RANGE := by
  rw [wideJets, List.length_cons, List.length_replicate]
  exact Nat.sub_add_cancel UINT_RANGE_pos

theorem wideJets_getD_zero : wideJets.getD 0 J0 = J0 := by
  rw [wideJets, List.getD_cons_zero]

theorem wideJets_getD_one : wideJets.getD 1 J0 = J1 := by
  rw [wideJets, List.getD_cons_succ,
    List.getD_eq_getElem _ _ (by rw [List.length_replicate]; exact UINT_RANGE_pred_pos)]
  exact List.getElem_replicate _ _

theorem wideJets_getElem?_zero : wideJets[0]? = some J0 := by
  rw [wideJets, List.getElem?_cons_zero]

theorem wideJets_getElem?_one : wideJets[1]? = some J1 := by
  rw [wideJets, List.getElem?_cons_succ, List.getElem?_replicate, if_pos UINT_RANGE_pred_pos]

theorem one_mod_UINT_RANGE : 1 % UINT_RANGE = 1 := by
  unfold UINT_RANGE; norm_num

theorem dijet_M2_J0_J0 : dijet P4.M2 J0 J0 = 400 := by
  simp [dijet, P4.M2, J0]; norm_num

theorem dijet_M2_J0_J1 : dijet P4.M2 J0 J1 = 375 := by
  simp [dijet, P4.M2, J0, J1]; norm_num

theorem dijet_M2_J1_J0 : dijet P4.M2 J1 J0 = 375 := by
  simp [dijet, P4.M2, J0, J1]; norm_num

theorem dijet_M2_J1_J1 : dijet P4.M2 J1 J1 = 300 := by
  simp [dijet, P4.M2, J1]; norm_num

/-- What the body prints for the wide jet list, whatever the fuel. -/
theorem eventBody_wideJets (fuel i : Nat) (out : List (Line ℚ)) :
    eventBody P4.M2 fuel i ⟨some wideJets⟩ out
      = ⟨out ++ Line.atEvent i :: (List.range fuel).map (fun t =>
            Line.dijetMass (dijet P4.M2 J0 (wideJets.getD (t % UINT_RANGE) J0))),
          Outcome.running⟩ :=
  eventBody_wraps P4.M2 fuel i J0 _ out (le_of_eq wideJets_length.symm)

/-- The values the body prints for the wide jet list, whatever the fuel. -/
theorem masses_eventBody_wideJets (fuel i : Nat) :
    masses (eventBody P4.M2 fuel i ⟨some wideJets⟩ []).out
      = (List.range fuel).map (fun t =>
          dijet P4.M2 J0 (wideJets.getD (t % UINT_RANGE) J0)) := by
  rw [eventBody_wideJets, List.nil_append, masses, masses_map_comp]

end Inputs

/-! ## The claims about the event loop -/

section Claims

variable {M : Type}

/-- C1 (amended): for every event whose jet list has length `N < 2 ^ 32`, the
body of the event loop, given fuel for `N` iterations of a loop, runs to its end
and prints the marker of the event followed by exactly `N * N` `Dijet mass`
values, no more and no fewer. -/
theorem dijet_count_eq_square (mass : P4 → M) (fuel i : Nat) (jets : List Jet)
    (out : List (Line M)) (hN : jets.length < UINT_RANGE) (hF : jets.length ≤ fuel) :
    ∃ ms : List M, ms.length = jets.length * jets.length ∧
      eventBody mass fuel i ⟨some jets⟩ out
        = ⟨out ++ Line.atEvent i :: ms.map Line.dijetMass, Outcome.returned⟩ :=
  ⟨grid mass jets, grid_length mass jets, eventBody_returns mass fuel i jets out hN hF⟩

/-- C1, witness: the event with the jets `J0`, `J1` and fuel 2. -/
theorem dijet_count_eq_square_witness :
    [J0, J1].length < UINT_RANGE ∧ [J0, J1].length ≤ 2 ∧
    ∃ ms : List ℚ, ms.length = [J0, J1].length * [J0, J1].length ∧
      eventBody P4.M2 2 0 ⟨some [J0, J1]⟩ []
        = ⟨[] ++ Line.atEvent 0 :: ms.map Line.dijetMass, Outcome.returned⟩ :=
  ⟨by unfold UINT_RANGE; norm_num, by simp,
    dijet_count_eq_square P4.M2 2 0 [J0, J1] [] (by unfold UINT_RANGE; norm_num) (by simp)⟩

/-- C1, counterexample: for a jet list of length `N = 2 ^ 32` the counter `j`
wraps to 0 before it reaches `N`, so the loops never end, whatever the fuel, and
with fuel `2 ^ 64 + 1` they have printed `2 ^ 64 + 1` values, more than
`N * N`. -/
theorem dijet_count_counterexample :
    wideJets.length = 2 ^ 32 ∧
    (¬ ∃ fuel, (eventBody P4.M2 fuel 0 ⟨some wideJets⟩ []).outcome = Outcome.returned) ∧
    (masses (eventBody P4.M2 (2 ^ 64 + 1) 0 ⟨some wideJets⟩ []).out).length = 2 ^ 64 + 1 ∧
    2 ^ 32 * 2 ^ 32 < 2 ^ 64 + 1 := by
  refine ⟨wideJets_length, ?_, ?_, by norm_num⟩
  · rintro ⟨fuel, h⟩
    rw [eventBody_wideJets] at h
    cases h
  · rw [masses_eventBody_wideJets, List.length_map, List.length_range]

/-- C2 (amended): for every event with jet list `J` of length `N < 2 ^ 32` and
every `k < N * N`, the body of the event loop, given fuel for `N` iterations of
a loop, runs to its end and the `k`-th value it prints (0-based) is
`mass(p4(J[k / N]) + p4(J[k % N]))`; in particular for the jets `[a, b]` it
prints the values of `(a,a)`, `(a,b)`, `(b,a)`, `(b,b)`, in this order. -/
theorem dijet_row_major (mass : P4 → M) (fuel i : Nat) (jets : List Jet)
    (out : List (Line M)) (hN : jets.length < UINT_RANGE) (hF : jets.length ≤ fuel) :
    ∃ ms : List M,
      eventBody mass fuel i ⟨some jets⟩ out
        = ⟨out ++ Line.atEvent i :: ms.map Line.dijetMass, Outcome.returned⟩ ∧
      (∀ k, k < jets.length * jets.length →
        ∃ a b : Jet, jets[k / jets.length]? = some a ∧ jets[k % jets.length]? = some b ∧
          ms[k]? = some (mass (a.p4 + b.p4))) ∧
      (∀ a b : Jet, jets = [a, b] →
        ms = [mass (a.p4 + a.p4), mass (a.p4 + b.p4), mass (b.p4 + a.p4),
          mass (b.p4 + b.p4)]) := by
  refine ⟨grid mass jets, eventBody_returns mass fuel i jets out hN hF, ?_, ?_⟩
  · intro k hk
    have hpos : 0 < jets.length := by
      rcases Nat.eq_zero_or_pos jets.length with h | h
      · rw [h] at hk; simp at hk
      · exact h
    have hr : k / jets.length < jets.length := Nat.div_lt_of_lt_mul hk
    have hc : k % jets.length < jets.length := Nat.mod_lt _ hpos
    refine ⟨jets[k / jets.length], jets[k % jets.length],
      List.getElem?_eq_getElem hr, List.getElem?_eq_getElem hc, ?_⟩
    have h := grid_getElem? mass jets (k / jets.length) (k % jets.length) _ _
      (List.getElem?_eq_getElem hr) (List.getElem?_eq_getElem hc)
    rw [Nat.div_add_mod' k jets.length] at h
    exact h
  · intro a b h
    subst h
    simp [grid, dijet]

/-- C2, witness: the event with the jets `J0`, `J1` and fuel 2. -/
theorem dijet_row_major_witness :
    [J0, J1].length < UINT_RANGE ∧ [J0, J1].length ≤ 2 ∧
    ∃ ms : List ℚ,
      eventBody P4.M2 2 0 ⟨some [J0, J1]⟩ []
        = ⟨[] ++ Line.atEvent 0 :: ms.map Line.dijetMass, Outcome.returned⟩ ∧
      (∀ k, k < [J0, J1].length * [J0, J1].length →
        ∃ a b : Jet, [J0, J1][k / [J0, J1].length]? = some a ∧
          [J0, J1][k % [J0, J1].length]? = some b ∧
          ms[k]? = some (P4.M2 (a.p4 + b.p4))) ∧
      (∀ a b : Jet, [J0, J1] = [a, b] →
        ms = [P4.M2 (a.p4 + a.p4), P4.M2 (a.p4 + b.p4), P4.M2 (b.p4 + a.p4),
          P4.M2 (b.p4 + b.p4)]) :=
  ⟨by unfold UINT_RANGE; norm_num, by simp,
    dijet_row_major P4.M2 2 0 [J0, J1] [] (by unfold UINT_RANGE; norm_num) (by simp)⟩

/-- C2, counterexample: for the jet list `J` of length `N = 2 ^ 32` that is `J0`
followed by copies of `J1`, and `k = N < N * N`, the claim gives the value of
`(J[1], J[0]) = (J1, J0)`, of squared mass 375, but the counter `j` has wrapped
and the `k`-th value printed, as soon as there is fuel for it, is the one of
`(J0, J0)`, of squared mass 400. -/
theorem dijet_row_major_counterexample :
    wideJets.length = 2 ^ 32 ∧ 2 ^ 32 < 2 ^ 32 * 2 ^ 32 ∧
    wideJets[2 ^ 32 / 2 ^ 32]? = some J1 ∧ wideJets[2 ^ 32 % 2 ^ 32]? = some J0 ∧
    P4.M2 (J1.p4 + J0.p4) = 375 ∧
    (∀ fuel, 2 ^ 32 < fuel →
      (masses (eventBody P4.M2 fuel 0 ⟨some wideJets⟩ []).out)[2 ^ 32]? = some 400) := by
  refine ⟨wideJets_length, by norm_num, ?_, ?_, dijet_M2_J1_J0, ?_⟩
  · rw [Nat.div_self (by norm_num)]
    exact wideJets_getElem?_one
  · rw [Nat.mod_self]
    exact wideJets_getElem?_zero
  · intro fuel hfuel
    rw [masses_eventBody_wideJets, List.getElem?_map, List.getElem?_range hfuel,
      Option.map_some']
    have h0 : 2 ^ 32 % UINT_RANGE = 0 := Nat.mod_self _
    rw [h0, wideJets_getD_zero, dijet_M2_J0_J0]

/-- C3 (amended): for a file of 3 events in which the jet collection of the 2nd
event is absent and the 1st event has `N < 2 ^ 32` jets, the scan, given fuel
for `N` iterations of a loop, is ended by the missing-collection error, and what
it has printed is the marker and the `N * N` masses of event 0 followed by the
marker of event 1: no mass is printed for event 1 and nothing for event 2. -/
theorem missing_collection_aborts (mass : P4 → M) (fuel : Nat) (jets : List Jet)
    (ev2 : Event) (hN : jets.length < UINT_RANGE) (hF : jets.length ≤ fuel) :
    ∃ ms : List M, ms.length = jets.length * jets.length ∧
      main mass fuel [⟨some jets⟩, ⟨none⟩, ev2]
        = ⟨Line.atEvent 0 :: ms.map Line.dijetMass ++ [Line.atEvent 1],
            Outcome.missingCollection⟩ := by
  refine ⟨grid mass jets, grid_length mass jets, ?_⟩
  have h := eventLoop_missing mass fuel [ev2] [⟨some jets⟩] 0 [] UINT_RANGE_pos
    (by
      intro ev hev
      rw [List.mem_singleton] at hev
      subst hev
      exact ⟨jets, rfl, hN, hF⟩)
  rw [main]
  simp only [List.singleton_append] at h
  rw [h]
  simp [report, one_mod_UINT_RANGE]

/-- C3, witness: the 1st event has the jets `J0`, `J1`, the 3rd has one jet,
and the fuel is 2. -/
theorem missing_collection_aborts_witness :
    [J0, J1].length < UINT_RANGE ∧ [J0, J1].length ≤ 2 ∧
    ∃ ms : List ℚ, ms.length = [J0, J1].length * [J0, J1].length ∧
      main P4.M2 2 [⟨some [J0, J1]⟩, ⟨none⟩, ⟨some [J0]⟩]
        = ⟨Line.atEvent 0 :: ms.map Line.dijetMass ++ [Line.atEvent 1],
            Outcome.missingCollection⟩ :=
  ⟨by unfold UINT_RANGE; norm_num, by simp,
    missing_collection_aborts P4.M2 2 [J0, J1] ⟨some [J0]⟩
      (by unfold UINT_RANGE; norm_num) (by simp)⟩

/-- C3, counterexample: on the file whose 1st event has the jets `J0`, `J1`,
whose 2nd event has no collection and whose 3rd event has the jet `J0`, the
scan is ended by the missing-collection error after it has printed the marker
of event 1: the marker is printed on line 15, before the collection is fetched
on lines 16-17. -/
theorem missing_collection_counterexample :
    main P4.M2 2 [⟨some [J0, J1]⟩, ⟨none⟩, ⟨some [J0]⟩]
      = ⟨[Line.atEvent 0, Line.dijetMass 400, Line.dijetMass 375, Line.dijetMass 375,
          Line.dijetMass 300, Line.atEvent 1], Outcome.missingCollection⟩ ∧
    Line.atEvent 1 ∈ (main P4.M2 2 [⟨some [J0, J1]⟩, ⟨none⟩, ⟨some [J0]⟩]).out := by
  have h : main P4.M2 2 [⟨some [J0, J1]⟩, ⟨none⟩, ⟨some [J0]⟩]
      = ⟨[Line.atEvent 0, Line.dijetMass 400, Line.dijetMass 375, Line.dijetMass 375,
          Line.dijetMass 300, Line.atEvent 1], Outcome.missingCollection⟩ := by
    have h := eventLoop_missing P4.M2 2 [⟨some [J0]⟩] [⟨some [J0, J1]⟩] 0 []
      UINT_RANGE_pos
      (by
        intro ev hev
        rw [List.mem_singleton] at hev
        subst hev
        exact ⟨[J0, J1], rfl, by unfold UINT_RANGE; norm_num, by simp⟩)
    rw [main]
    simp only [List.singleton_append] at h
    rw [h]
    simp [report, one_mod_UINT_RANGE, grid, dijet_M2_J0_J0, dijet_M2_J0_J1,
      dijet_M2_J1_J0, dijet_M2_J1_J1]
  exact ⟨h, by rw [h]; simp⟩

/-- C4 (amended): for every file of `M ≤ 2 ^ 32` events that all have their jet
collection, each with fewer than `2 ^ 32` jets, the scan, given fuel for the
longest jet list, runs to its end and prints exactly `M` event markers, the
`k`-th of which (0-based) prints the index `k`, whatever the jet counts are: the
counter `i` of the jet loop is a variable of its own and leaves the event
counter alone. -/
theorem markers_count_up (mass : P4 → M) (fuel : Nat) (file : List Event)
    (hM : file.length ≤ UINT_RANGE)
    (hP : ∀ ev ∈ file, ∃ jets, ev.skimmedPatJets = some jets ∧
      jets.length < UINT_RANGE ∧ jets.length ≤ fuel) :
    (main mass fuel file).outcome = Outcome.returned ∧
    markers (main mass fuel file).out = List.range file.length := by
  rw [main, eventLoop_returns mass fuel file 0 [] hP]
  refine ⟨rfl, ?_⟩
  rw [List.nil_append, markers_report mass file 0 UINT_RANGE_pos]
  conv_rhs => rw [← List.map_id (List.range file.length)]
  apply List.map_congr_left
  intro k hk
  rw [List.mem_range] at hk
  rw [Nat.zero_add, id, Nat.mod_eq_of_lt (by omega)]

/-- C4, witness: a file of three events with 2, 0 and 1 jets, and fuel 2. -/
theorem markers_count_up_witness :
    [(⟨some [J0, J1]⟩ : Event), ⟨some []⟩, ⟨some [J1]⟩].length ≤ UINT_RANGE ∧
    (main P4.M2 2 [⟨some [J0, J1]⟩, ⟨some []⟩, ⟨some [J1]⟩]).outcome = Outcome.returned ∧
    markers (main P4.M2 2 [⟨some [J0, J1]⟩, ⟨some []⟩, ⟨some [J1]⟩]).out
      = List.range [(⟨some [J0, J1]⟩ : Event), ⟨some []⟩, ⟨some [J1]⟩].length :=
  ⟨by unfold UINT_RANGE; norm_num,
    markers_count_up P4.M2 2 [⟨some [J0, J1]⟩, ⟨some []⟩, ⟨some [J1]⟩]
      (by unfold UINT_RANGE; norm_num)
      (by
        intro ev hev
        simp only [List.mem_cons, List.mem_singleton, List.not_mem_nil, or_false] at hev
        rcases hev with h | h | h <;> subst h
        · exact ⟨[J0, J1], rfl, by unfold UINT_RANGE; norm_num, by simp⟩
        · exact ⟨[], rfl, by unfold UINT_RANGE; norm_num, by simp⟩
        · exact ⟨[J1], rfl, by unfold UINT_RANGE; norm_num, by simp⟩)⟩

/-- C4, counterexample, in three parts. A file of two events whose 1st event has
no collection: one marker is printed, not two. A file of `2 ^ 32 + 1` events
without jets: the event counter has wrapped when the event at position `2 ^ 32`
is reached, and its marker prints 0. A file of two events whose 1st event has
`2 ^ 32` jets: whatever the fuel, the scan is still in the 1st event and has
printed one marker. -/
theorem markers_count_up_counterexample :
    (∀ fuel, markers (main P4.M2 fuel [⟨none⟩, ⟨some []⟩]).out = [0]) ∧
    (longFile.length = 2 ^ 32 + 1 ∧
      ∀ fuel, (markers (main P4.M2 fuel longFile).out)[2 ^ 32]? = some 0) ∧
    (∀ fuel, (main P4.M2 fuel [⟨some wideJets⟩, ⟨some []⟩]).outcome = Outcome.running ∧
      markers (main P4.M2 fuel [⟨some wideJets⟩, ⟨some []⟩]).out = [0]) := by
  refine ⟨?_, ⟨?_, ?_⟩, ?_⟩
  · intro fuel
    simp [main, eventLoop, eventBody, markers]
  · rw [longFile, List.length_replicate]
    rfl
  · intro fuel
    have hP : ∀ ev ∈ longFile, Passable fuel ev := by
      intro ev hev
      rw [longFile] at hev
      rw [List.eq_of_mem_replicate hev]
      exact ⟨[], rfl, UINT_RANGE_pos, Nat.zero_le _⟩
    have hlen : longFile.length = UINT_RANGE + 1 := by
      rw [longFile, List.length_replicate]
    rw [main, eventLoop_returns P4.M2 fuel longFile 0 [] hP, List.nil_append,
      markers_report P4.M2 longFile 0 UINT_RANGE_pos, List.getElem?_map, hlen,
      List.getElem?_range (by unfold UINT_RANGE; norm_num), Option.map_some', Nat.zero_add]
    exact congrArg some (Nat.mod_self _)
  · intro fuel
    have h : eventLoop P4.M2 fuel [⟨some wideJets⟩, ⟨some []⟩] 0 []
        = eventBody P4.M2 fuel 0 ⟨some wideJets⟩ [] :=
      eventLoop_wraps P4.M2 fuel 0 J0 _ _ [] (le_of_eq wideJets_length.symm)
    rw [main, h, eventBody_wideJets]
    refine ⟨rfl, ?_⟩
    rw [List.nil_append, markers, markers_map_comp]

/-- C7 (amended): for the event whose jets are `J0 = (0, 0, 0, E=10)` and
`J1 = (3, 4, 0, E=10)`, the body of the event loop, given fuel 2 or more, prints
exactly four masses, in order: `sqrt(400) = 20` for `(J0,J0)`, `sqrt(375)` for
`(J0,J1)`, `sqrt(375)` for `(J1,J0)` and `sqrt(300)` for `(J1,J1)`; the squared
masses of the four sums are 400, 375, 375, 300. -/
theorem scenario_masses (fuel i : Nat) (hF : 2 ≤ fuel) :
    (∀ out : List (Line ℚ), eventBody P4.M2 fuel i ⟨some [J0, J1]⟩ out
      = ⟨out ++ [Line.atEvent i, Line.dijetMass 400, Line.dijetMass 375,
          Line.dijetMass 375, Line.dijetMass 300], Outcome.returned⟩) ∧
    (∀ out : List (Line ℝ), eventBody P4.mass fuel i ⟨some [J0, J1]⟩ out
      = ⟨out ++ [Line.atEvent i, Line.dijetMass 20,
          Line.dijetMass (Real.sqrt 375), Line.dijetMass (Real.sqrt 375),
          Line.dijetMass (Real.sqrt 300)], Outcome.returned⟩) := by
  have hN : [J0, J1].length < UINT_RANGE := by unfold UINT_RANGE; norm_num
  have hF2 : [J0, J1].length ≤ fuel := by simpa using hF
  constructor
  · intro out
    rw [eventBody_returns P4.M2 fuel i [J0, J1] out hN hF2]
    simp [grid, dijet_M2_J0_J0, dijet_M2_J0_J1, dijet_M2_J1_J0, dijet_M2_J1_J1]
  · intro out
    rw [eventBody_returns P4.mass fuel i [J0, J1] out hN hF2]
    simp [grid, dijet_mass_of_M2 _ _ _ dijet_M2_J0_J0, dijet_mass_of_M2 _ _ _ dijet_M2_J0_J1,
      dijet_mass_of_M2 _ _ _ dijet_M2_J1_J0, dijet_mass_of_M2 _ _ _ dijet_M2_J1_J1]
    have h := sqrt_400
    push_cast at h
    exact h

/-- C7, witness: fuel 2 and the event counter at 0. -/
theorem scenario_masses_witness :
    2 ≤ 2 ∧
    (∀ out : List (Line ℚ), eventBody P4.M2 2 0 ⟨some [J0, J1]⟩ out
      = ⟨out ++ [Line.atEvent 0, Line.dijetMass 400, Line.dijetMass 375,
          Line.dijetMass 375, Line.dijetMass 300], Outcome.returned⟩) ∧
    (∀ out : List (Line ℝ), eventBody P4.mass 2 0 ⟨some [J0, J1]⟩ out
      = ⟨out ++ [Line.atEvent 0, Line.dijetMass 20,
          Line.dijetMass (Real.sqrt 375), Line.dijetMass (Real.sqrt 375),
          Line.dijetMass (Real.sqrt 300)], Outcome.returned⟩) :=
  ⟨le_refl 2, scenario_masses 2 0 (le_refl 2)⟩

/-- C7, counterexample: for the event with the jets `J0`, `J1` the first value
printed, the one of `(J0, J0)`, is the mass of the sum `(0, 0, 0, E=20)`: its
squared mass is 400, not 100, and its mass is 20, not 10. -/
theorem scenario_masses_counterexample :
    masses (eventBody P4.M2 2 0 ⟨some [J0, J1]⟩ []).out = [400, 375, 375, 300] ∧
    (400 : ℚ) ≠ 100 ∧
    (masses (eventBody P4.mass 2 0 ⟨some [J0, J1]⟩ []).out).head? = some 20 ∧
    (20 : ℝ) ≠ 10 := by
  have hN : [J0, J1].length < UINT_RANGE := by unfold UINT_RANGE; norm_num
  refine ⟨?_, by norm_num, ?_, by norm_num⟩
  · rw [eventBody_returns P4.M2 2 0 [J0, J1] [] hN (le_refl 2), List.nil_append, masses,
      masses_map_dijetMass]
    simp [grid, dijet_M2_J0_J0, dijet_M2_J0_J1, dijet_M2_J1_J0, dijet_M2_J1_J1]
  · rw [eventBody_returns P4.mass 2 0 [J0, J1] [] hN (le_refl 2), List.nil_append, masses,
      masses_map_dijetMass]
    simp [grid, dijet_mass_of_M2 _ _ _ dijet_M2_J0_J0]
    have h := sqrt_400
    push_cast at h
    exact h

/-- C9 (amended): for every event with jet list of length `N < 2 ^ 32` and all
indices `r, c < N`, the body of the event loop, given fuel for `N` iterations of
a loop, runs to its end, and the value it prints at position `r * N + c` is the
value it prints at position `c * N + r`. -/
theorem dijet_grid_symmetric (mass : P4 → M) (fuel i : Nat) (jets : List Jet)
    (out : List (Line M)) (hN : jets.length < UINT_RANGE) (hF : jets.length ≤ fuel)
    (r c : Nat) (hr : r < jets.length) (hc : c < jets.length) :
    ∃ ms : List M,
      eventBody mass fuel i ⟨some jets⟩ out
        = ⟨out ++ Line.atEvent i :: ms.map Line.dijetMass, Outcome.returned⟩ ∧
      ms[r * jets.length + c]? = ms[c * jets.length + r]? ∧
      (ms[r * jets.length + c]?).isSome := by
  refine ⟨grid mass jets, eventBody_returns mass fuel i jets out hN hF, ?_, ?_⟩
  · rw [grid_getElem? mass jets r c _ _ (List.getElem?_eq_getElem hr)
        (List.getElem?_eq_getElem hc),
      grid_getElem? mass jets c r _ _ (List.getElem?_eq_getElem hc)
        (List.getElem?_eq_getElem hr)]
    unfold dijet
    rw [P4.add_swap]
  · rw [grid_getElem? mass jets r c _ _ (List.getElem?_eq_getElem hr)
        (List.getElem?_eq_getElem hc)]
    rfl

/-- C9, witness: the event with the jets `J0`, `J1`, fuel 2, and the positions
of `(J0, J1)` and `(J1, J0)`. -/
theorem dijet_grid_symmetric_witness :
    [J0, J1].length < UINT_RANGE ∧ [J0, J1].length ≤ 2 ∧
    0 < [J0, J1].length ∧ 1 < [J0, J1].length ∧
    ∃ ms : List ℚ,
      eventBody P4.M2 2 0 ⟨some [J0, J1]⟩ []
        = ⟨[] ++ Line.atEvent 0 :: ms.map Line.dijetMass, Outcome.returned⟩ ∧
      ms[0 * [J0, J1].length + 1]? = ms[1 * [J0, J1].length + 0]? ∧
      (ms[0 * [J0, J1].length + 1]?).isSome :=
  ⟨by unfold UINT_RANGE; norm_num, by simp, by simp, by simp,
    dijet_grid_symmetric P4.M2 2 0 [J0, J1] [] (by unfold UINT_RANGE; norm_num) (by simp)
      0 1 (by simp) (by simp)⟩

/-- C9, counterexample: for the jet list of length `N = 2 ^ 32` that is `J0`
followed by copies of `J1`, and the indices 0 and 1, the value printed at
position `0 * N + 1` is the one of `(J0, J1)`, of squared mass 375, and the value
printed at position `1 * N + 0`, where the counter `j` has wrapped, is the one
of `(J0, J0)`, of squared mass 400, as soon as there is fuel for it. -/
theorem dijet_grid_symmetric_counterexample :
    wideJets.length = 2 ^ 32 ∧
    (∀ fuel, 2 ^ 32 < fuel →
      (masses (eventBody P4.M2 fuel 0 ⟨some wideJets⟩ []).out)[0 * 2 ^ 32 + 1]? = some 375 ∧
      (masses (eventBody P4.M2 fuel 0 ⟨some wideJets⟩ []).out)[1 * 2 ^ 32 + 0]?
        = some 400) ∧
    (375 : ℚ) ≠ 400 := by
  refine ⟨wideJets_length, ?_, by norm_num⟩
  intro fuel hfuel
  have h1 : 0 * 2 ^ 32 + 1 = 1 := by norm_num
  have h2 : 1 * 2 ^ 32 + 0 = UINT_RANGE := by unfold UINT_RANGE; norm_num
  have hf : UINT_RANGE < fuel := hfuel
  rw [h1, h2, masses_eventBody_wideJets]
  constructor
  · rw [List.getElem?_map, List.getElem?_range (by omega), Option.map_some',
      one_mod_UINT_RANGE, wideJets_getD_one, dijet_M2_J0_J1]
  · rw [List.getElem?_map, List.getElem?_range hf, Option.map_some', Nat.mod_self,
      wideJets_getD_zero, dijet_M2_J0_J0]

end Claims

end EventLoop

/-! ## The claim about `SecondLib` -/

/-- C10: `SecondLib` fills the ten-bin histogram over `[0, 10)` 45 times, with
the values `i % 10` for `i = 0, ..., 44`; every value is at most 9, the
underflow and overflow cells stay empty, the values 0 to 4 are filled 5 times
each and the values 5 to 9 are filled 4 times each, into the bins 1 to 5 and 6
to 10, and the bin counts sum to 45. -/
theorem SecondLib_bins :
    SecondLib = SecondLib.filled.foldl (fun hist v => hist.Fill (v : ℚ)) (TH1F.create 10 0 10) ∧
    SecondLib.filled.length = 45 ∧
    SecondLib.fEntries = 45 ∧
    SecondLib.filled.all (fun v => decide (v ≤ 9)) = true ∧
    (List.range 10).map (fun v => SecondLib.filled.count v) = [5, 5, 5, 5, 5, 4, 4, 4, 4, 4] ∧
    SecondLib.fArray = [0, 5, 5, 5, 5, 5, 4, 4, 4, 4, 4, 0] ∧
    SecondLib.fArray.sum = 45 := by
  have hA : SecondLib.fArray = [0, 5, 5, 5, 5, 5, 4, 4, 4, 4, 4, 0] := by
    simp [SecondLib, TH1F.Fill, TH1F.FindBin, TH1F.create, List.range, List.range.loop,
      List.modify]
  have hE : SecondLib.fEntries = 45 := by
    simp [SecondLib, TH1F.Fill, TH1F.create, List.range, List.range.loop]
  refine ⟨?_, by decide, hE, by decide, by decide, hA, ?_⟩
  · rw [SecondLib, SecondLib.filled, List.foldl_map]
  · rw [hA]; rfl
